import Mathlib

/-!
Verification of the FreshKeep backend (FastAPI + MongoDB service).

Shallow embedding conventions:
* MongoDB collections (`users`, `pantry_items`, `shopping_list`) are Lean
  lists in insertion order; `find_one` is `List.find?`, `insert_one` appends,
  `update_one` rewrites the first match, `delete_one` removes the first
  match, `delete_many` filters.
* The opaque unique id strings produced by `uuid.uuid4()` are modelled as
  naturals drawn from a `next_id` counter carried in the database state;
  freshness of the counter mirrors uuid uniqueness.
* Timestamps (`datetime.utcnow()`) are naturals counting seconds; the
  30-day token lifetime is `30 * 86400` seconds.
* A handler is `DB → ... → Except ErrResp (DB × α)`; an `Except.error`
  result models `raise HTTPException`, and in every modelled handler the
  raise happens before any write, so an error leaves the database as it was.
* The bcrypt password-hashing collaborator is modelled as an injective
  tagging function (its internals are out of scope for the spec).
-/

/-- HTTP error as raised by `HTTPException(status_code, detail)`. -/
structure ErrResp where
  status_code : Nat
  detail : String
deriving Repr, DecidableEq

/-- The 404 raised by pantry/shopping handlers: `HTTPException(404, "Item not found")`. -/
def itemNotFound : ErrResp := ⟨404, "Item not found"⟩

/-- User document stored in the `users` collection (server.py register). -/
structure User where
  id : Nat
  email : String
  password_hash : String
  is_premium : Bool
  created_at : Nat
deriving Repr, DecidableEq

/-- Pantry item document in the `pantry_items` collection. -/
structure PantryItem where
  id : Nat
  user_id : Nat
  name : String
  category : String
  expiry_date : String
  quantity : Int
  barcode : Option String
  status : String
  created_at : Nat
deriving Repr, DecidableEq

/-- Shopping list item document in the `shopping_list` collection. -/
structure ShoppingItem where
  id : Nat
  user_id : Nat
  item_name : String
  is_purchased : Bool
  created_at : Nat
deriving Repr, DecidableEq

/-- Pydantic model `PantryItemUpdate`: every field optional, `none` = omitted/null. -/
structure PantryItemUpdate where
  name : Option String := none
  category : Option String := none
  expiry_date : Option String := none
  quantity : Option Int := none
  status : Option String := none
  barcode : Option String := none
deriving Repr, DecidableEq

/-- Pydantic model `ShoppingItemUpdate`. -/
structure ShoppingItemUpdate where
  item_name : Option String := none
  is_purchased : Option Bool := none
deriving Repr, DecidableEq

/-- Whole persistent state: the three MongoDB collections plus the
fresh-id counter modelling `uuid.uuid4()`. -/
structure DB where
  users : List User := []
  pantry_items : List PantryItem := []
  shopping_list : List ShoppingItem := []
  next_id : Nat := 0
deriving Repr, DecidableEq

/-! ### Recipe selector (src/routers/recipes.py) -/

/-- Static recipe record returned by `/api/recipes/generate`. -/
structure RecipeResponse where
  title : String
  story : String
  ingredients : List String
  instructions : List String
  prep_time : String
  cook_time : String
deriving Repr, DecidableEq

/-- Substring containment on character lists: Python's `needle in hay`. -/
def containsSub (needle : List Char) : List Char → Bool
  | [] => needle.isEmpty
  | c :: t => needle.isPrefixOf (c :: t) || containsSub needle t

/-- Python `needle in hay` on strings (unanchored substring match). -/
def strContains (hay needle : String) : Bool :=
  containsSub needle.data hay.data

/-- Python `s.lower()`: character-wise lowercasing. -/
def py_lower (s : String) : String :=
  ⟨s.data.map Char.toLower⟩

/-- Rule 1 result in recipes.py. -/
def roastedGarlicChicken : RecipeResponse :=
  { title := "Roasted Garlic Chicken"
    story := "Since you have chicken and garlic in your pantry, this aromatic roast is the perfect way to use them up!"
    ingredients := ["Chicken", "Garlic (Minced)", "Olive Oil", "Salt", "Pepper"]
    instructions := ["Preheat oven to 400°F.",
      "Rub the chicken with olive oil and plenty of minced garlic.",
      "Season generously with salt and pepper.",
      "Roast for 25-30 minutes until juices run clear.",
      "Let rest for 5 minutes before serving."]
    prep_time := "10 mins"
    cook_time := "30 mins" }

/-- Rule 2 result in recipes.py. -/
def pantryPastaAglioEOlio : RecipeResponse :=
  { title := "Pantry Pasta Aglio e Olio"
    story := "A classic Italian 'poor man's meal' that turns simple pantry staples into a gourmet dinner."
    ingredients := ["Pasta", "Garlic", "Olive Oil", "Red Pepper Flakes (optional)"]
    instructions := ["Boil a large pot of salted water and cook pasta until al dente.",
      "While pasta cooks, heat olive oil in a pan over medium heat.",
      "Sauté thinly sliced garlic until golden (don't burn it!).",
      "Toss the cooked pasta into the oil and garlic. Add a splash of pasta water to make it glossy."]
    prep_time := "5 mins"
    cook_time := "10 mins" }

/-- Rule 3 result in recipes.py. -/
def quickPantryQuesadillas : RecipeResponse :=
  { title := "Quick Pantry Quesadillas"
    story := "Using your tortillas and pantry staples for a quick, cheesy, and satisfying meal."
    ingredients := ["Tortillas", "Cheese", "Beans", "Any leftover protein"]
    instructions := ["Place a tortilla in a dry pan over medium heat.",
      "Sprinkle cheese and beans (and garlic!) on one half.",
      "Fold the tortilla over and cook until golden brown on both sides.",
      "Slice into triangles and serve."]
    prep_time := "5 mins"
    cook_time := "6 mins" }

/-- Rule 4 result in recipes.py. -/
def lemonGarlicButterSeafood : RecipeResponse :=
  { title := "Lemon Garlic Butter Seafood"
    story := "Seafood cooks fast! This recipe highlights the fresh flavors of your pantry ingredients."
    ingredients := ["Seafood of choice", "Butter or Oil", "Garlic", "Lemon (if available)"]
    instructions := ["Pat the seafood dry with paper towels.",
      "Heat butter and garlic in a pan until fragrant.",
      "Sear the seafood for 2-3 minutes per side.",
      "Squeeze lemon over the top and serve immediately."]
    prep_time := "5 mins"
    cook_time := "8 mins" }

/-- Rule 5 (default) result in recipes.py. -/
def freshKeepGardenScramble : RecipeResponse :=
  { title := "FreshKeep Garden Scramble"
    story := "A healthy way to use up your miscellaneous pantry items and eggs."
    ingredients := ["3 Eggs", "Miscellaneous Veggies", "Salt & Pepper"]
    instructions := ["Whisk the eggs in a small bowl.",
      "Sauté your pantry veggies in a pan.",
      "Pour in eggs and scramble until fluffy.",
      "Season and serve immediately."]
    prep_time := "5 mins"
    cook_time := "5 mins" }

/-- Function `generate_recipe` from recipes.py: lowercase every ingredient, then five
ordered keyword rules with unanchored substring match, first match wins. -/
def generate_recipe (ingredients : List String) : RecipeResponse :=
  let pantry := ingredients.map py_lower
  if pantry.any (fun item => strContains item "chicken") then
    roastedGarlicChicken
  else if pantry.any (fun item => strContains item "pasta") ||
      pantry.any (fun item => strContains item "spaghetti") then
    pantryPastaAglioEOlio
  else if pantry.any (fun item => strContains item "tortilla") ||
      pantry.any (fun item => strContains item "bean") then
    quickPantryQuesadillas
  else if pantry.any (fun item => strContains item "shrimp") ||
      pantry.any (fun item => strContains item "fish") ||
      pantry.any (fun item => strContains item "salmon") then
    lemonGarlicButterSeafood
  else
    freshKeepGardenScramble

/-- Spec-level predicate: some ingredient of `l`, lowercased, contains `s`. -/
def hasIng (l : List String) (s : String) : Prop :=
  ∃ i ∈ l, strContains (py_lower i) s = true

instance (l : List String) (s : String) : Decidable (hasIng l s) := by
  unfold hasIng; infer_instance

theorem hasIng_iff_any (l : List String) (s : String) :
    hasIng l s ↔ (l.map py_lower).any (fun item => strContains item s) = true := by
  simp [hasIng, List.any_map, List.any_eq_true, Function.comp]

theorem generate_recipe_any_congr (l₁ l₂ : List String)
    (h : ∀ s, hasIng l₁ s ↔ hasIng l₂ s) :
    generate_recipe l₁ = generate_recipe l₂ := by
  have hb : ∀ s, (l₁.map py_lower).any (fun item => strContains item s) =
      (l₂.map py_lower).any (fun item => strContains item s) := by
    intro s
    have := (h s)
    rw [hasIng_iff_any, hasIng_iff_any] at this
    cases h1 : (l₁.map py_lower).any (fun item => strContains item s) with
    | true => exact (this.mp h1).symm
    | false =>
      cases h2 : (l₂.map py_lower).any (fun item => strContains item s) with
      | true => exact absurd (this.mpr h2) (by simp [h1])
      | false => rfl
  unfold generate_recipe
  simp only [hb]

theorem any_eq_of_perm {α : Type} {l m : List α} (p : α → Bool) (h : l.Perm m) :
    l.any p = m.any p := by
  cases h1 : l.any p with
  | true =>
    rw [List.any_eq_true] at h1
    obtain ⟨x, hx, hp⟩ := h1
    exact (List.any_eq_true.mpr ⟨x, h.mem_iff.mp hx, hp⟩).symm
  | false =>
    rw [List.any_eq_false] at h1
    exact (List.any_eq_false.mpr (fun x hx => h1 x (h.mem_iff.mpr hx))).symm

theorem hasIng_iff_of_perm {l₁ l₂ : List String} (h : l₁.Perm l₂) (s : String) :
    hasIng l₁ s ↔ hasIng l₂ s := by
  unfold hasIng
  constructor
  · rintro ⟨i, hi, hc⟩; exact ⟨i, h.mem_iff.mp hi, hc⟩
  · rintro ⟨i, hi, hc⟩; exact ⟨i, h.mem_iff.mpr hi, hc⟩

theorem generate_recipe_eval (l : List String) :
    generate_recipe l =
      (if hasIng l "chicken" then roastedGarlicChicken
       else if hasIng l "pasta" ∨ hasIng l "spaghetti" then pantryPastaAglioEOlio
       else if hasIng l "tortilla" ∨ hasIng l "bean" then quickPantryQuesadillas
       else if hasIng l "shrimp" ∨ hasIng l "fish" ∨ hasIng l "salmon" then
         lemonGarlicButterSeafood
       else freshKeepGardenScramble) := by
  unfold generate_recipe
  simp only [hasIng_iff_any, Bool.or_eq_true, or_assoc]

/-- C2: the recipe selector lowercases every ingredient and applies five
ordered substring rules, first match wins (chicken; pasta/spaghetti;
tortilla/bean; shrimp/fish/salmon; default scramble); a list with both a
chicken and a pasta ingredient yields the chicken recipe, and the result is
invariant under permutation of the input list. -/
theorem C2_recipe_selector_rules :
    (∀ l, hasIng l "chicken" → generate_recipe l = roastedGarlicChicken) ∧
    (∀ l, ¬ hasIng l "chicken" → (hasIng l "pasta" ∨ hasIng l "spaghetti") →
      generate_recipe l = pantryPastaAglioEOlio) ∧
    (∀ l, ¬ hasIng l "chicken" → ¬ hasIng l "pasta" → ¬ hasIng l "spaghetti" →
      (hasIng l "tortilla" ∨ hasIng l "bean") → generate_recipe l = quickPantryQuesadillas) ∧
    (∀ l, ¬ hasIng l "chicken" → ¬ hasIng l "pasta" → ¬ hasIng l "spaghetti" →
      ¬ hasIng l "tortilla" → ¬ hasIng l "bean" →
      (hasIng l "shrimp" ∨ hasIng l "fish" ∨ hasIng l "salmon") →
      generate_recipe l = lemonGarlicButterSeafood) ∧
    (∀ l, ¬ hasIng l "chicken" → ¬ hasIng l "pasta" → ¬ hasIng l "spaghetti" →
      ¬ hasIng l "tortilla" → ¬ hasIng l "bean" → ¬ hasIng l "shrimp" →
      ¬ hasIng l "fish" → ¬ hasIng l "salmon" →
      generate_recipe l = freshKeepGardenScramble) ∧
    (∀ l, hasIng l "chicken" → hasIng l "pasta" →
      (generate_recipe l).title = "Roasted Garlic Chicken") ∧
    (∀ l₁ l₂, l₁.Perm l₂ → generate_recipe l₁ = generate_recipe l₂) := by
  refine ⟨?_, ?_, ?_, ?_, ?_, ?_, ?_⟩
  · intro l h; rw [generate_recipe_eval, if_pos h]
  · intro l h1 h2
    rw [generate_recipe_eval, if_neg h1, if_pos h2]
  · intro l h1 h2 h3 h4
    rw [generate_recipe_eval, if_neg h1, if_neg (by tauto), if_pos h4]
  · intro l h1 h2 h3 h4 h5 h6
    rw [generate_recipe_eval, if_neg h1, if_neg (by tauto), if_neg (by tauto), if_pos h6]
  · intro l h1 h2 h3 h4 h5 h6 h7 h8
    rw [generate_recipe_eval, if_neg h1, if_neg (by tauto), if_neg (by tauto),
      if_neg (by tauto)]
  · intro l h1 _
    rw [generate_recipe_eval, if_pos h1]
    rfl
  · intro l₁ l₂ hperm
    unfold generate_recipe
    simp only [any_eq_of_perm _ (hperm.map py_lower)]

theorem C2_recipe_selector_rules_witness :
    generate_recipe ["chicken breast", "pasta"] = roastedGarlicChicken ∧
    generate_recipe ["spaghetti"] = pantryPastaAglioEOlio ∧
    generate_recipe ["black beans"] = quickPantryQuesadillas ∧
    generate_recipe ["salmon"] = lemonGarlicButterSeafood ∧
    generate_recipe ["rice", "milk"] = freshKeepGardenScramble ∧
    (generate_recipe ["pasta", "chicken thigh"]).title = "Roasted Garlic Chicken" :=
  ⟨C2_recipe_selector_rules.1 _ (by decide),
   C2_recipe_selector_rules.2.1 _ (by decide) (by decide),
   C2_recipe_selector_rules.2.2.1 _ (by decide) (by decide) (by decide) (by decide),
   C2_recipe_selector_rules.2.2.2.1 _ (by decide) (by decide) (by decide) (by decide)
     (by decide) (by decide),
   C2_recipe_selector_rules.2.2.2.2.1 _ (by decide) (by decide) (by decide) (by decide)
     (by decide) (by decide) (by decide) (by decide),
   C2_recipe_selector_rules.2.2.2.2.2.1 _ (by decide) (by decide)⟩

/-! ### Auth and token issuing (server.py) -/

/-- A decoded HS256 token payload: claims `{sub: user_id, exp: epoch}`.
Signature validity is implicit: every `Token` value models a token signed
with the server secret. -/
structure Token where
  sub : Nat
  exp : Nat
deriving Repr, DecidableEq

/-- Token lifetime `ACCESS_TOKEN_EXPIRE_DAYS = 30`, in seconds. -/
def accessTokenExpireSeconds : Nat := 30 * 86400

/-- Helper `hash_password` delegates to bcrypt; modelled as an injective tag. -/
def hash_password (password : String) : String :=
  "bcrypt$" ++ password

/-- Helper `create_access_token(user_id)`: claims `sub = user_id`,
`exp = now + 30 days`. -/
def create_access_token (user_id : Nat) (now : Nat) : Token :=
  ⟨user_id, now + accessTokenExpireSeconds⟩

/-- Dependency `get_current_user`: decode the token (reject when expired), read the
`sub` claim, and resolve it in the `users` collection; 401 when the id no
longer resolves. -/
def get_current_user (db : DB) (now : Nat) (tok : Token) : Except ErrResp User :=
  if tok.exp < now then
    .error ⟨401, "Token expired"⟩
  else
    match db.users.find? (fun u => u.id == tok.sub) with
    | none => .error ⟨401, "User not found"⟩
    | some u => .ok u

/-- Handler `register`: reject a duplicate email with 400, otherwise insert the new
user and issue a token for the fresh id. -/
def register (db : DB) (now : Nat) (email password : String) :
    Except ErrResp (DB × Token × User) :=
  match db.users.find? (fun u => u.email == email) with
  | some _ => .error ⟨400, "Email already registered"⟩
  | none =>
    let user : User :=
      { id := db.next_id
        email := email
        password_hash := hash_password password
        is_premium := false
        created_at := now }
    let db' : DB := { db with users := db.users ++ [user], next_id := db.next_id + 1 }
    .ok (db', create_access_token user.id now, user)

/-! ### Pantry routes (server.py) -/

/-- Rewrite the first list element satisfying `p` (MongoDB `update_one`). -/
def updateFirst {α : Type} (p : α → Bool) (f : α → α) : List α → List α
  | [] => []
  | x :: xs => if p x then f x :: xs else x :: updateFirst p f xs

/-- Remove the first list element satisfying `p` (MongoDB `delete_one`). -/
def removeFirst {α : Type} (p : α → Bool) : List α → List α
  | [] => []
  | x :: xs => if p x then xs else x :: removeFirst p xs

/-- Route `GET /api/pantry`: `find({"user_id": uid}).to_list(1000)`. -/
def get_pantry_items (db : DB) (uid : Nat) : List PantryItem :=
  (db.pantry_items.filter (fun it => it.user_id == uid)).take 1000

/-- Route `POST /api/pantry`: insert a fresh item with status "fresh". -/
def create_pantry_item (db : DB) (now : Nat) (uid : Nat)
    (name category expiry_date : String) (quantity : Int) (barcode : Option String) :
    DB × PantryItem :=
  let item : PantryItem :=
    { id := db.next_id
      user_id := uid
      name := name
      category := category
      expiry_date := expiry_date
      quantity := quantity
      barcode := barcode
      status := "fresh"
      created_at := now }
  ({ db with pantry_items := db.pantry_items ++ [item], next_id := db.next_id + 1 }, item)

/-- The `$set` of the non-null fields of a `PantryItemUpdate`
(`update_data = {k: v for k, v in item_update.dict().items() if v is not None}`). -/
def applyPantryPatch (p : PantryItemUpdate) (x : PantryItem) : PantryItem :=
  { x with
    name := p.name.getD x.name
    category := p.category.getD x.category
    expiry_date := p.expiry_date.getD x.expiry_date
    quantity := p.quantity.getD x.quantity
    status := p.status.getD x.status
    barcode := match p.barcode with | none => x.barcode | some b => some b }

/-- Python `if update_data:`: some patch field is non-null. -/
def pantryPatchNonempty (p : PantryItemUpdate) : Bool :=
  p.name.isSome || p.category.isSome || p.expiry_date.isSome ||
    p.quantity.isSome || p.status.isSome || p.barcode.isSome

/-- Route `PUT /api/pantry/{item_id}`: find the item by id and owner (404 when
absent); when the patched status is "consumed" or "wasted" insert a shopping
item carrying the pre-patch name; apply the non-null patch fields by
`update_one({"id": item_id}, ...)` (note: that filter carries no user_id);
re-read by id and return. -/
def update_pantry_item (db : DB) (now : Nat) (uid : Nat) (item_id : Nat)
    (item_update : PantryItemUpdate) : Except ErrResp (DB × PantryItem) :=
  match db.pantry_items.find? (fun it => it.id == item_id && it.user_id == uid) with
  | none => .error itemNotFound
  | some existing =>
    let db1 : DB :=
      if item_update.status == some "consumed" || item_update.status == some "wasted" then
        { db with
          shopping_list := db.shopping_list ++
            [{ id := db.next_id
               user_id := uid
               item_name := existing.name
               is_purchased := false
               created_at := now }]
          next_id := db.next_id + 1 }
      else db
    let db2 : DB :=
      if pantryPatchNonempty item_update then
        { db1 with
          pantry_items :=
            updateFirst (fun it => it.id == item_id) (applyPantryPatch item_update)
              db1.pantry_items }
      else db1
    match db2.pantry_items.find? (fun it => it.id == item_id) with
    | none => .error ⟨500, "Internal Server Error"⟩
    | some updated => .ok (db2, updated)

/-- Route `DELETE /api/pantry/{item_id}`: `delete_one({"id": item_id, "user_id": uid})`,
404 when `deleted_count == 0`. -/
def delete_pantry_item (db : DB) (uid : Nat) (item_id : Nat) :
    Except ErrResp (DB × String) :=
  if db.pantry_items.any (fun it => it.id == item_id && it.user_id == uid) then
    .ok ({ db with
            pantry_items :=
              removeFirst (fun it => it.id == item_id && it.user_id == uid)
                db.pantry_items },
         "Item deleted successfully")
  else
    .error itemNotFound

/-! ### Authenticated shopping list routes (server.py) -/

/-- Route `GET /api/shopping`: `find({"user_id": uid}).to_list(1000)`. -/
def get_shopping_list (db : DB) (uid : Nat) : List ShoppingItem :=
  (db.shopping_list.filter (fun it => it.user_id == uid)).take 1000

/-- Route `POST /api/shopping`: insert with `is_purchased = False`. -/
def create_shopping_item (db : DB) (now : Nat) (uid : Nat) (item_name : String) :
    DB × ShoppingItem :=
  let item : ShoppingItem :=
    { id := db.next_id
      user_id := uid
      item_name := item_name
      is_purchased := false
      created_at := now }
  ({ db with shopping_list := db.shopping_list ++ [item], next_id := db.next_id + 1 }, item)

/-- The `$set` of the non-null fields of a `ShoppingItemUpdate`. -/
def applyShoppingPatch (p : ShoppingItemUpdate) (x : ShoppingItem) : ShoppingItem :=
  { x with
    item_name := p.item_name.getD x.item_name
    is_purchased := p.is_purchased.getD x.is_purchased }

/-- Python `if update_data:` for the shopping patch. -/
def shoppingPatchNonempty (p : ShoppingItemUpdate) : Bool :=
  p.item_name.isSome || p.is_purchased.isSome

/-- Route `PUT /api/shopping/{item_id}`: analogous to the pantry update, with no
side effect. -/
def update_shopping_item (db : DB) (uid : Nat) (item_id : Nat)
    (item_update : ShoppingItemUpdate) : Except ErrResp (DB × ShoppingItem) :=
  match db.shopping_list.find? (fun it => it.id == item_id && it.user_id == uid) with
  | none => .error itemNotFound
  | some _ =>
    let db2 : DB :=
      if shoppingPatchNonempty item_update then
        { db with
          shopping_list :=
            updateFirst (fun it => it.id == item_id) (applyShoppingPatch item_update)
              db.shopping_list }
      else db
    match db2.shopping_list.find? (fun it => it.id == item_id) with
    | none => .error ⟨500, "Internal Server Error"⟩
    | some updated => .ok (db2, updated)

/-- Route `DELETE /api/shopping/{item_id}`. -/
def delete_shopping_item (db : DB) (uid : Nat) (item_id : Nat) :
    Except ErrResp (DB × String) :=
  if db.shopping_list.any (fun it => it.id == item_id && it.user_id == uid) then
    .ok ({ db with
            shopping_list :=
              removeFirst (fun it => it.id == item_id && it.user_id == uid)
                db.shopping_list },
         "Item deleted successfully")
  else
    .error itemNotFound

/-- Route `DELETE /api/shopping/clear/purchased`:
`delete_many({"user_id": uid, "is_purchased": True})`, returning the deleted
count. -/
def clear_purchased_items (db : DB) (uid : Nat) : DB × Nat :=
  ({ db with
      shopping_list :=
        db.shopping_list.filter (fun it => !(it.user_id == uid && it.is_purchased)) },
   db.shopping_list.countP (fun it => it.user_id == uid && it.is_purchased))

/-! ### Legacy global shopping list (src/routers/shopping_list.py) -/

/-- Route `POST /api/shopping-list/` on the in-memory global list: append the name
only when it is not already present. -/
def legacy_add_item (lst : List String) (nm : String) : List String × String :=
  (if lst.contains nm then lst else lst ++ [nm], "Added " ++ nm ++ " to list")

/-- Route `DELETE /api/shopping-list/{item_name}`: `list.remove` of the first
occurrence when present; the message is always "Deleted". -/
def legacy_delete_item (lst : List String) (nm : String) : List String × String :=
  (if lst.contains nm then lst.erase nm else lst, "Deleted")

/-- One legacy request touching the global list. -/
inductive LegacyOp where
  | add (nm : String)
  | del (nm : String)
deriving Repr, DecidableEq

/-- Apply one legacy request to the global list state. -/
def legacy_step (lst : List String) : LegacyOp → List String
  | .add nm => (legacy_add_item lst nm).1
  | .del nm => (legacy_delete_item lst nm).1

/-- Run a sequence of legacy requests from the initial (empty) module-level
`temp_shopping_db`. -/
def runLegacy (ops : List LegacyOp) : List String :=
  ops.foldl legacy_step []

/-! ### List helper lemmas -/

theorem find?_congr_on {α : Type} {p q : α → Bool} :
    ∀ {l : List α}, (∀ a ∈ l, p a = q a) → l.find? p = l.find? q := by
  intro l
  induction l with
  | nil => intro; rfl
  | cons x xs ih =>
    intro h
    have hx := h x (List.mem_cons_self x xs)
    cases hpx : p x with
    | true =>
      rw [List.find?_cons_of_pos _ hpx, List.find?_cons_of_pos _ (hx ▸ hpx)]
    | false =>
      rw [List.find?_cons_of_neg _ (by simp [hpx]),
        List.find?_cons_of_neg _ (by simp [← hx, hpx]),
        ih (fun a ha => h a (List.mem_cons_of_mem _ ha))]

theorem updateFirst_find? {α : Type} {p : α → Bool} {f : α → α}
    (hf : ∀ x, p x = true → p (f x) = true) :
    ∀ l : List α, (updateFirst p f l).find? p = (l.find? p).map f := by
  intro l
  induction l with
  | nil => rfl
  | cons x xs ih =>
    cases hx : p x with
    | true =>
      simp [updateFirst, hx, List.find?_cons_of_pos _ hx, List.find?_cons_of_pos _ (hf x hx)]
    | false =>
      have h1 : updateFirst p f (x :: xs) = x :: updateFirst p f xs := by
        simp [updateFirst, hx]
      rw [h1, List.find?_cons_of_neg _ (by simp [hx]),
        List.find?_cons_of_neg _ (by simp [hx]), ih]

/-- C1: a pantry update by the owner succeeds, and inserts exactly one new
shopping-list item for that user — carrying the pre-patch item name and
is_purchased = false — exactly when the patch's status field is "consumed"
or "wasted"; any other (or absent) status inserts nothing. The check is on
the patch value alone, so it fires even without an actual transition. -/
theorem C1_consumed_wasted_side_effect (db : DB) (now uid item_id : Nat)
    (patch : PantryItemUpdate) (existing : PantryItem)
    (hfind : db.pantry_items.find? (fun it => it.id == item_id && it.user_id == uid) =
      some existing) :
    ∃ db' res, update_pantry_item db now uid item_id patch = .ok (db', res) ∧
      ((patch.status = some "consumed" ∨ patch.status = some "wasted") →
        ∃ newIt, db'.shopping_list = db.shopping_list ++ [newIt] ∧
          newIt.item_name = existing.name ∧ newIt.is_purchased = false ∧
          newIt.user_id = uid) ∧
      (¬ (patch.status = some "consumed" ∨ patch.status = some "wasted") →
        db'.shopping_list = db.shopping_list) := by
  have hq := List.find?_some hfind
  have hmem := List.mem_of_find?_eq_some hfind
  rw [Bool.and_eq_true, beq_iff_eq, beq_iff_eq] at hq
  obtain ⟨z, hz⟩ : ∃ z, db.pantry_items.find? (fun it => it.id == item_id) = some z := by
    rw [← Option.isSome_iff_exists, List.find?_isSome]
    exact ⟨existing, hmem, by simp [hq.1]⟩
  have hcond : (patch.status == some "consumed" || patch.status == some "wasted") = true ↔
      (patch.status = some "consumed" ∨ patch.status = some "wasted") := by
    simp
  have hfp : ∀ x : PantryItem, (x.id == item_id) = true →
      ((applyPantryPatch patch x).id == item_id) = true := fun x hx => hx
  by_cases hc : patch.status = some "consumed" ∨ patch.status = some "wasted"
  · by_cases hpn : pantryPatchNonempty patch = true
    · simp only [update_pantry_item, hfind, if_pos (hcond.mpr hc), if_pos hpn,
        updateFirst_find? hfp, hz, Option.map_some']
      refine ⟨_, _, rfl, fun _ => ⟨_, rfl, rfl, rfl, rfl⟩, fun hneg => absurd hc hneg⟩
    · simp only [update_pantry_item, hfind, if_pos (hcond.mpr hc), if_neg hpn, hz]
      refine ⟨_, _, rfl, fun _ => ⟨_, rfl, rfl, rfl, rfl⟩, fun hneg => absurd hc hneg⟩
  · have hc' : (patch.status == some "consumed" || patch.status == some "wasted") = false := by
      rw [← Bool.not_eq_true]
      exact fun h => hc (hcond.mp h)
    by_cases hpn : pantryPatchNonempty patch = true
    · simp only [update_pantry_item, hfind, hc', Bool.false_eq_true, if_false, if_pos hpn,
        updateFirst_find? hfp, hz, Option.map_some']
      exact ⟨_, _, rfl, fun h => absurd h hc, fun _ => rfl⟩
    · simp only [update_pantry_item, hfind, hc', Bool.false_eq_true, if_false, if_neg hpn, hz]
      exact ⟨_, _, rfl, fun h => absurd h hc, fun _ => rfl⟩

/-- Concrete pantry item used by witnesses. -/
def pantryW1 : PantryItem :=
  { id := 1
    user_id := 0
    name := "Milk"
    category := "Dairy"
    expiry_date := "2026-01-01"
    quantity := 1
    barcode := none
    status := "fresh"
    created_at := 0 }

/-- Concrete shopping item used by witnesses. -/
def shoppingW1 : ShoppingItem :=
  { id := 3
    user_id := 0
    item_name := "Eggs"
    is_purchased := false
    created_at := 0 }

/-- Concrete database used by witnesses: one user owning one pantry item
and one shopping item. -/
def dbW1 : DB :=
  { users := [{ id := 0
                email := "a@example.com"
                password_hash := hash_password "pw"
                is_premium := false
                created_at := 0 }]
    pantry_items := [pantryW1]
    shopping_list := [shoppingW1]
    next_id := 4 }

theorem C1_consumed_wasted_side_effect_witness :
    ∃ db' res,
      update_pantry_item dbW1 5 0 1 { status := some "wasted" } = .ok (db', res) ∧
      ∃ newIt, db'.shopping_list = dbW1.shopping_list ++ [newIt] ∧
        newIt.item_name = "Milk" ∧ newIt.is_purchased = false ∧ newIt.user_id = 0 := by
  obtain ⟨db', res, h1, h2, _⟩ :=
    C1_consumed_wasted_side_effect dbW1 5 0 1 { status := some "wasted" } pantryW1 (by rfl)
  obtain ⟨newIt, ha, hb, hc, hd⟩ := h2 (Or.inr rfl)
  exact ⟨db', res, h1, newIt, ha, hb, hc, hd⟩

/-- An all-null patch is exactly one with `pantryPatchNonempty` false, and
it applies as the identity. -/
theorem applyPantryPatch_of_empty {p : PantryItemUpdate}
    (h : pantryPatchNonempty p = false) (x : PantryItem) : applyPantryPatch p x = x := by
  obtain ⟨n, c, e, q, s, b⟩ := p
  cases n <;> cases c <;> cases e <;> cases q <;> cases s <;> cases b <;>
    first
      | rfl
      | simp [pantryPatchNonempty] at h

theorem applyShoppingPatch_of_empty {p : ShoppingItemUpdate}
    (h : shoppingPatchNonempty p = false) (x : ShoppingItem) : applyShoppingPatch p x = x := by
  obtain ⟨n, b⟩ := p
  cases n <;> cases b <;>
    first
      | rfl
      | simp [shoppingPatchNonempty] at h

/-- Characterization of a successful owner update: the returned (and stored)
item is the existing item with exactly the non-null patch fields replaced;
an update with no non-null field and no consumed/wasted status leaves the
whole database untouched. The id-uniqueness hypothesis reflects uuid ids. -/
theorem update_pantry_item_char (db : DB) (now uid item_id : Nat)
    (patch : PantryItemUpdate) (existing : PantryItem)
    (hfind : db.pantry_items.find? (fun it => it.id == item_id && it.user_id == uid) =
      some existing)
    (huniq : ∀ it ∈ db.pantry_items, it.id = item_id → it.user_id = uid) :
    ∃ db', update_pantry_item db now uid item_id patch =
        .ok (db', applyPantryPatch patch existing) ∧
      (pantryPatchNonempty patch = false →
        patch.status ≠ some "consumed" → patch.status ≠ some "wasted" → db' = db) := by
  have hid : db.pantry_items.find? (fun it => it.id == item_id) = some existing := by
    rw [find?_congr_on (q := fun it => it.id == item_id && it.user_id == uid) ?_, hfind]
    intro a ha
    cases hp : (a.id == item_id) with
    | true =>
      have h2 := huniq a ha (by simpa using hp)
      have h3 : a.id = item_id := by simpa using hp
      simp [h2, h3]
    | false => simp [hp]
  have hfp : ∀ x : PantryItem, (x.id == item_id) = true →
      ((applyPantryPatch patch x).id == item_id) = true := fun x hx => hx
  by_cases hc : (patch.status == some "consumed" || patch.status == some "wasted") = true
  · by_cases hpn : pantryPatchNonempty patch = true
    · simp only [update_pantry_item, hfind, if_pos hc, if_pos hpn,
        updateFirst_find? hfp, hid, Option.map_some']
      exact ⟨_, rfl, fun h => absurd h (by simp [hpn])⟩
    · simp only [update_pantry_item, hfind, if_pos hc, if_neg hpn, hid]
      rw [applyPantryPatch_of_empty (by simpa using hpn)]
      refine ⟨_, rfl, fun _ h1 h2 => ?_⟩
      rw [Bool.or_eq_true, beq_iff_eq, beq_iff_eq] at hc
      rcases hc with hc | hc
      · exact absurd hc h1
      · exact absurd hc h2
  · rw [Bool.not_eq_true] at hc
    by_cases hpn : pantryPatchNonempty patch = true
    · simp only [update_pantry_item, hfind, hc, Bool.false_eq_true, if_false, if_pos hpn,
        updateFirst_find? hfp, hid, Option.map_some']
      exact ⟨_, rfl, fun h => absurd h (by simp [hpn])⟩
    · simp only [update_pantry_item, hfind, hc, Bool.false_eq_true, if_false, if_neg hpn, hid]
      rw [applyPantryPatch_of_empty (by simpa using hpn)]
      exact ⟨_, rfl, fun _ _ _ => rfl⟩

/-- Characterization of a successful owner update of a shopping item. -/
theorem update_shopping_item_char (db : DB) (uid item_id : Nat)
    (patch : ShoppingItemUpdate) (existing : ShoppingItem)
    (hfind : db.shopping_list.find? (fun it => it.id == item_id && it.user_id == uid) =
      some existing)
    (huniq : ∀ it ∈ db.shopping_list, it.id = item_id → it.user_id = uid) :
    ∃ db', update_shopping_item db uid item_id patch =
        .ok (db', applyShoppingPatch patch existing) ∧
      (shoppingPatchNonempty patch = false → db' = db) := by
  have hid : db.shopping_list.find? (fun it => it.id == item_id) = some existing := by
    rw [find?_congr_on (q := fun it => it.id == item_id && it.user_id == uid) ?_, hfind]
    intro a ha
    cases hp : (a.id == item_id) with
    | true =>
      have h2 := huniq a ha (by simpa using hp)
      have h3 : a.id = item_id := by simpa using hp
      simp [h2, h3]
    | false => simp [hp]
  have hfp : ∀ x : ShoppingItem, (x.id == item_id) = true →
      ((applyShoppingPatch patch x).id == item_id) = true := fun x hx => hx
  by_cases hpn : shoppingPatchNonempty patch = true
  · simp only [update_shopping_item, hfind, if_pos hpn,
      updateFirst_find? hfp, hid, Option.map_some']
    exact ⟨_, rfl, fun h => absurd h (by simp [hpn])⟩
  · simp only [update_shopping_item, hfind, if_neg hpn, hid]
    rw [applyShoppingPatch_of_empty (by simpa using hpn)]
    exact ⟨_, rfl, fun _ => rfl⟩

/-- C7: a successful partial update of a pantry or shopping item keeps
every stored field whose patch field is omitted/null exactly as it was; a
null field never clears a stored value, and an all-null patch succeeds and
changes nothing at all. -/
theorem C7_partial_update_frame :
    (∀ (db : DB) (now uid item_id : Nat) (patch : PantryItemUpdate) (existing : PantryItem),
      db.pantry_items.find? (fun it => it.id == item_id && it.user_id == uid) =
          some existing →
      (∀ it ∈ db.pantry_items, it.id = item_id → it.user_id = uid) →
      ∃ db' res, update_pantry_item db now uid item_id patch = .ok (db', res) ∧
        (patch.name = none → res.name = existing.name) ∧
        (patch.category = none → res.category = existing.category) ∧
        (patch.expiry_date = none → res.expiry_date = existing.expiry_date) ∧
        (patch.quantity = none → res.quantity = existing.quantity) ∧
        (patch.status = none → res.status = existing.status) ∧
        (patch.barcode = none → res.barcode = existing.barcode) ∧
        (patch = {} → res = existing ∧ db' = db)) ∧
    (∀ (db : DB) (uid item_id : Nat) (patch : ShoppingItemUpdate) (existing : ShoppingItem),
      db.shopping_list.find? (fun it => it.id == item_id && it.user_id == uid) =
          some existing →
      (∀ it ∈ db.shopping_list, it.id = item_id → it.user_id = uid) →
      ∃ db' res, update_shopping_item db uid item_id patch = .ok (db', res) ∧
        (patch.item_name = none → res.item_name = existing.item_name) ∧
        (patch.is_purchased = none → res.is_purchased = existing.is_purchased) ∧
        (patch = {} → res = existing ∧ db' = db)) := by
  constructor
  · intro db now uid item_id patch existing hfind huniq
    obtain ⟨db', hok, hemp⟩ :=
      update_pantry_item_char db now uid item_id patch existing hfind huniq
    refine ⟨db', _, hok, ?_, ?_, ?_, ?_, ?_, ?_, ?_⟩
    · intro h; simp [applyPantryPatch, h]
    · intro h; simp [applyPantryPatch, h]
    · intro h; simp [applyPantryPatch, h]
    · intro h; simp [applyPantryPatch, h]
    · intro h; simp [applyPantryPatch, h]
    · intro h; simp [applyPantryPatch, h]
    · intro h
      subst h
      exact ⟨applyPantryPatch_of_empty (p := {}) rfl existing, hemp rfl (by simp) (by simp)⟩
  · intro db uid item_id patch existing hfind huniq
    obtain ⟨db', hok, hemp⟩ :=
      update_shopping_item_char db uid item_id patch existing hfind huniq
    refine ⟨db', _, hok, ?_, ?_, ?_⟩
    · intro h; simp [applyShoppingPatch, h]
    · intro h; simp [applyShoppingPatch, h]
    · intro h
      subst h
      exact ⟨applyShoppingPatch_of_empty (p := {}) rfl existing, hemp rfl⟩

theorem C7_partial_update_frame_witness :
    (∃ db' res, update_pantry_item dbW1 9 0 1 {} = .ok (db', res) ∧
      res = pantryW1 ∧ db' = dbW1) ∧
    (∃ db' res, update_shopping_item dbW1 0 3 {} = .ok (db', res) ∧
      res = shoppingW1 ∧ db' = dbW1) := by
  constructor
  · obtain ⟨db', res, hok, _, _, _, _, _, _, hall⟩ :=
      C7_partial_update_frame.1 dbW1 9 0 1 {} pantryW1 (by rfl) (by decide)
    obtain ⟨h1, h2⟩ := hall rfl
    exact ⟨db', res, hok, h1, h2⟩
  · obtain ⟨db', res, hok, _, _, hall⟩ :=
      C7_partial_update_frame.2 dbW1 0 3 {} shoppingW1 (by rfl) (by decide)
    obtain ⟨h1, h2⟩ := hall rfl
    exact ⟨db', res, hok, h1, h2⟩

/-- C4: `clear_purchased` deletes exactly the caller's purchased items —
never an unpurchased one, never another user's — returns the number
deleted, touches no other collection, and a second immediate call deletes
nothing and returns 0. -/
theorem C4_clear_purchased_exact (db : DB) (uid : Nat) :
    ((clear_purchased_items db uid).1).shopping_list =
      db.shopping_list.filter (fun it => !(it.user_id == uid && it.is_purchased)) ∧
    (clear_purchased_items db uid).2 =
      (db.shopping_list.filter (fun it => it.user_id == uid && it.is_purchased)).length ∧
    (∀ it ∈ db.shopping_list, (it.user_id ≠ uid ∨ it.is_purchased = false) →
      it ∈ ((clear_purchased_items db uid).1).shopping_list) ∧
    (∀ it ∈ ((clear_purchased_items db uid).1).shopping_list,
      it ∈ db.shopping_list ∧ ¬ (it.user_id = uid ∧ it.is_purchased = true)) ∧
    ((clear_purchased_items db uid).1).users = db.users ∧
    ((clear_purchased_items db uid).1).pantry_items = db.pantry_items ∧
    (clear_purchased_items ((clear_purchased_items db uid).1) uid).2 = 0 ∧
    (clear_purchased_items ((clear_purchased_items db uid).1) uid).1 =
      (clear_purchased_items db uid).1 := by
  refine ⟨rfl, List.countP_eq_length_filter _ _, ?_, ?_, rfl, rfl, ?_, ?_⟩
  · intro it hmem hkeep
    simp only [clear_purchased_items, List.mem_filter]
    refine ⟨hmem, ?_⟩
    rcases hkeep with h | h <;> simp [h]
  · intro it hmem
    simp only [clear_purchased_items, List.mem_filter] at hmem
    refine ⟨hmem.1, ?_⟩
    rintro ⟨h1, h2⟩
    simp [h1, h2] at hmem
  · simp only [clear_purchased_items]
    rw [List.countP_eq_zero]
    intro a ha
    rw [List.mem_filter] at ha
    have h2 := ha.2
    simp only [Bool.not_eq_true'] at h2
    simp [h2]
  · simp only [clear_purchased_items, List.filter_filter]
    congr 1
    apply List.filter_congr
    intro x _
    cases hx : (x.user_id == uid && x.is_purchased) <;> simp [hx]

/-- Concrete shopping items for the clear_purchased witness. -/
def shopA : ShoppingItem :=
  { id := 10, user_id := 0, item_name := "Bread", is_purchased := false, created_at := 0 }

def shopB : ShoppingItem :=
  { id := 11, user_id := 0, item_name := "Jam", is_purchased := true, created_at := 0 }

def shopC : ShoppingItem :=
  { id := 12, user_id := 1, item_name := "Tea", is_purchased := true, created_at := 0 }

def dbW4 : DB :=
  { users := [], pantry_items := [], shopping_list := [shopA, shopB, shopC], next_id := 20 }

theorem C4_clear_purchased_exact_witness :
    (clear_purchased_items dbW4 0).2 = 1 ∧
    shopA ∈ ((clear_purchased_items dbW4 0).1).shopping_list ∧
    shopC ∈ ((clear_purchased_items dbW4 0).1).shopping_list ∧
    (clear_purchased_items ((clear_purchased_items dbW4 0).1) 0).2 = 0 := by
  have h := C4_clear_purchased_exact dbW4 0
  refine ⟨h.2.1.trans (by decide), ?_, ?_, h.2.2.2.2.2.2.1⟩
  · exact h.2.2.1 shopA (by decide) (Or.inr rfl)
  · exact h.2.2.1 shopC (by decide) (Or.inl (by decide))

/-- One legacy request keeps the global list duplicate-free. -/
theorem legacy_step_nodup (lst : List String) (h : lst.Nodup) (op : LegacyOp) :
    (legacy_step lst op).Nodup := by
  cases op with
  | add nm =>
    simp only [legacy_step, legacy_add_item]
    by_cases hmem : lst.contains nm
    · rw [if_pos hmem]; exact h
    · rw [if_neg hmem]
      have hnm : nm ∉ lst := by simpa using hmem
      simp [List.nodup_append, h, hnm]
  | del nm =>
    simp only [legacy_step, legacy_delete_item]
    by_cases hmem : lst.contains nm
    · rw [if_pos hmem]; exact h.erase nm
    · rw [if_neg hmem]; exact h

theorem runLegacy_aux (ops : List LegacyOp) :
    ∀ lst : List String, lst.Nodup → (ops.foldl legacy_step lst).Nodup := by
  induction ops with
  | nil => intro lst h; exact h
  | cons op rest ih =>
    intro lst h
    exact ih _ (legacy_step_nodup lst h op)

/-- C9: the legacy global shopping list deduplicates by exact name — POST
appends only names not already present — so any sequence of legacy POST and
DELETE requests starting from the empty list never produces two equal
names. -/
theorem C9_legacy_dedup :
    (∀ ops : List LegacyOp, (runLegacy ops).Nodup) ∧
    (∀ (lst : List String) (nm : String), nm ∈ lst → (legacy_add_item lst nm).1 = lst) ∧
    (∀ (lst : List String) (nm : String), nm ∉ lst →
      (legacy_add_item lst nm).1 = lst ++ [nm]) := by
  refine ⟨fun ops => runLegacy_aux ops [] List.nodup_nil, ?_, ?_⟩
  · intro lst nm h
    simp [legacy_add_item, h]
  · intro lst nm h
    simp [legacy_add_item, h]

theorem C9_legacy_dedup_witness :
    (runLegacy [.add "milk", .add "milk", .add "eggs", .del "milk"]).Nodup ∧
    (legacy_add_item ["milk"] "milk").1 = ["milk"] ∧
    (legacy_add_item ["milk"] "eggs").1 = ["milk", "eggs"] :=
  ⟨C9_legacy_dedup.1 _,
   C9_legacy_dedup.2.1 ["milk"] "milk" (by decide),
   C9_legacy_dedup.2.2 ["milk"] "eggs" (by decide)⟩

/-- C10: the legacy DELETE always answers "Deleted" — it never reports an
error — and deleting an absent name leaves the global list unchanged. -/
theorem C10_legacy_delete_total :
    (∀ (lst : List String) (nm : String), (legacy_delete_item lst nm).2 = "Deleted") ∧
    (∀ (lst : List String) (nm : String), nm ∉ lst → (legacy_delete_item lst nm).1 = lst) := by
  refine ⟨fun lst nm => rfl, ?_⟩
  intro lst nm h
  simp [legacy_delete_item, h]

theorem C10_legacy_delete_total_witness :
    (legacy_delete_item ["milk"] "eggs").2 = "Deleted" ∧
    (legacy_delete_item ["milk"] "eggs").1 = ["milk"] :=
  ⟨C10_legacy_delete_total.1 ["milk"] "eggs",
   C10_legacy_delete_total.2 ["milk"] "eggs" (by decide)⟩

/-- C5: registering an email that is already present always fails with the
400 Conflict "Email already registered", whatever the password; the raise
happens before any insert, so no user is stored and no token issued. -/
theorem C5_register_duplicate_email (db : DB) (now : Nat) (email password : String)
    (hex : ∃ u ∈ db.users, u.email = email) :
    register db now email password = .error ⟨400, "Email already registered"⟩ := by
  obtain ⟨u, hu, he⟩ := hex
  obtain ⟨w, hw⟩ : ∃ w, db.users.find? (fun v => v.email == email) = some w := by
    rw [← Option.isSome_iff_exists, List.find?_isSome]
    exact ⟨u, hu, by simp [he]⟩
  simp [register, hw]

theorem C5_register_duplicate_email_witness :
    register dbW1 3 "a@example.com" "another-password" =
      .error ⟨400, "Email already registered"⟩ :=
  C5_register_duplicate_email dbW1 3 "a@example.com" "another-password"
    ⟨{ id := 0
       email := "a@example.com"
       password_hash := hash_password "pw"
       is_premium := false
       created_at := 0 }, by decide, rfl⟩

/-- C3: an item owned by user A is invisible to a different user B: it never
appears in B's pantry or shopping listings, and B's update or delete naming
its id fails with the same 404 "Item not found" that a nonexistent id
produces, leaving the stores untouched (an error is raised before any
write). The id-uniqueness hypotheses reflect uuid ids. -/
theorem C3_ownership_isolation (db : DB) (now A B : Nat)
    (X : PantryItem) (Y : ShoppingItem)
    (hAB : A ≠ B)
    (hX : X ∈ db.pantry_items) (hXA : X.user_id = A)
    (hXuniq : ∀ it ∈ db.pantry_items, it.id = X.id → it.user_id = A)
    (hY : Y ∈ db.shopping_list) (hYA : Y.user_id = A)
    (hYuniq : ∀ it ∈ db.shopping_list, it.id = Y.id → it.user_id = A)
    (patch : PantryItemUpdate) (spatch : ShoppingItemUpdate) :
    X ∉ get_pantry_items db B ∧
    Y ∉ get_shopping_list db B ∧
    update_pantry_item db now B X.id patch = .error itemNotFound ∧
    delete_pantry_item db B X.id = .error itemNotFound ∧
    update_shopping_item db B Y.id spatch = .error itemNotFound ∧
    delete_shopping_item db B Y.id = .error itemNotFound ∧
    (∀ fid : Nat, (∀ it ∈ db.pantry_items, it.id ≠ fid) →
      (∀ it ∈ db.shopping_list, it.id ≠ fid) →
      update_pantry_item db now B fid patch = .error itemNotFound ∧
      delete_pantry_item db B fid = .error itemNotFound ∧
      update_shopping_item db B fid spatch = .error itemNotFound ∧
      delete_shopping_item db B fid = .error itemNotFound) := by
  have hXnone : db.pantry_items.find? (fun it => it.id == X.id && it.user_id == B) = none := by
    rw [List.find?_eq_none]
    intro it hit hcontra
    rw [Bool.and_eq_true, beq_iff_eq, beq_iff_eq] at hcontra
    exact hAB ((hXuniq it hit hcontra.1) ▸ hcontra.2)
  have hYnone : db.shopping_list.find? (fun it => it.id == Y.id && it.user_id == B) = none := by
    rw [List.find?_eq_none]
    intro it hit hcontra
    rw [Bool.and_eq_true, beq_iff_eq, beq_iff_eq] at hcontra
    exact hAB ((hYuniq it hit hcontra.1) ▸ hcontra.2)
  refine ⟨?_, ?_, ?_, ?_, ?_, ?_, ?_⟩
  · intro hmem
    have h1 := List.mem_of_mem_take hmem
    rw [List.mem_filter] at h1
    exact hAB (hXA ▸ (by simpa using h1.2))
  · intro hmem
    have h1 := List.mem_of_mem_take hmem
    rw [List.mem_filter] at h1
    exact hAB (hYA ▸ (by simpa using h1.2))
  · simp [update_pantry_item, hXnone]
  · have : db.pantry_items.any (fun it => it.id == X.id && it.user_id == B) = false := by
      rw [List.any_eq_false]
      intro it hit hcontra
      rw [Bool.and_eq_true, beq_iff_eq, beq_iff_eq] at hcontra
      exact hAB ((hXuniq it hit hcontra.1) ▸ hcontra.2)
    simp [delete_pantry_item, this]
  · simp [update_shopping_item, hYnone]
  · have : db.shopping_list.any (fun it => it.id == Y.id && it.user_id == B) = false := by
      rw [List.any_eq_false]
      intro it hit hcontra
      rw [Bool.and_eq_true, beq_iff_eq, beq_iff_eq] at hcontra
      exact hAB ((hYuniq it hit hcontra.1) ▸ hcontra.2)
    simp [delete_shopping_item, this]
  · intro fid hp hs
    have hp1 : db.pantry_items.find? (fun it => it.id == fid && it.user_id == B) = none := by
      rw [List.find?_eq_none]
      intro it hit hcontra
      rw [Bool.and_eq_true, beq_iff_eq, beq_iff_eq] at hcontra
      exact hp it hit hcontra.1
    have hp2 : db.pantry_items.any (fun it => it.id == fid && it.user_id == B) = false := by
      rw [List.any_eq_false]
      intro it hit hcontra
      rw [Bool.and_eq_true, beq_iff_eq, beq_iff_eq] at hcontra
      exact hp it hit hcontra.1
    have hs1 : db.shopping_list.find? (fun it => it.id == fid && it.user_id == B) = none := by
      rw [List.find?_eq_none]
      intro it hit hcontra
      rw [Bool.and_eq_true, beq_iff_eq, beq_iff_eq] at hcontra
      exact hs it hit hcontra.1
    have hs2 : db.shopping_list.any (fun it => it.id == fid && it.user_id == B) = false := by
      rw [List.any_eq_false]
      intro it hit hcontra
      rw [Bool.and_eq_true, beq_iff_eq, beq_iff_eq] at hcontra
      exact hs it hit hcontra.1
    exact ⟨by simp [update_pantry_item, hp1], by simp [delete_pantry_item, hp2],
      by simp [update_shopping_item, hs1], by simp [delete_shopping_item, hs2]⟩

theorem C3_ownership_isolation_witness :
    pantryW1 ∉ get_pantry_items dbW1 5 ∧
    update_pantry_item dbW1 0 5 1 {} = .error itemNotFound ∧
    delete_shopping_item dbW1 5 3 = .error itemNotFound := by
  have h := C3_ownership_isolation dbW1 0 0 5 pantryW1 shoppingW1
    (by decide) (by decide) rfl (by decide) (by decide) rfl (by decide) {} {}
  exact ⟨h.1, h.2.2.1, h.2.2.2.2.2.1⟩

/-- Pantry item family used to exhibit the 1000-item listing cap. -/
def mkItemC8 (i : Nat) : PantryItem :=
  { id := i
    user_id := 7
    name := "Rice"
    category := "Grain"
    expiry_date := "2026-01-01"
    quantity := 1
    barcode := none
    status := "fresh"
    created_at := 0 }

/-- A state in which user 7 owns 1001 pantry items. -/
def dbC8 : DB :=
  { users := []
    pantry_items := (List.range 1001).map mkItemC8
    shopping_list := []
    next_id := 2000 }

set_option maxRecDepth 8000 in
/-- C8 counterexample: `get_pantry_items` delegates to
`find(...).to_list(1000)`, so with 1001 owned items the 1001st owned item is
missing from the result — the listing does not return all owned items. -/
theorem C8_counterexample :
    mkItemC8 1000 ∈ dbC8.pantry_items ∧ (mkItemC8 1000).user_id = 7 ∧
    mkItemC8 1000 ∉ get_pantry_items dbC8 7 := by
  have hfilter : dbC8.pantry_items.filter (fun it => it.user_id == 7) = dbC8.pantry_items := by
    apply List.filter_eq_self.mpr
    intro a ha
    simp only [dbC8, List.mem_map] at ha
    obtain ⟨i, _, rfl⟩ := ha
    rfl
  refine ⟨?_, rfl, ?_⟩
  · exact List.mem_map.mpr ⟨1000, List.mem_range.mpr (by norm_num), rfl⟩
  · intro hmem
    unfold get_pantry_items at hmem
    rw [hfilter] at hmem
    have h1 : mkItemC8 1000 ∈ ((List.range 1001).map mkItemC8).take 1000 := hmem
    rw [← List.map_take, List.take_range, List.mem_map] at h1
    obtain ⟨i, hi, heq⟩ := h1
    rw [List.mem_range] at hi
    have h2 : i = 1000 := congrArg PantryItem.id heq
    omega

/-- C8 amended: the pantry listing returns only items owned by the caller,
and it returns every owned item whenever the caller owns at most 1000;
beyond that the `to_list(1000)` cap truncates to the first 1000. -/
theorem C8_amended_pantry_listing (db : DB) (uid : Nat) :
    (∀ it ∈ get_pantry_items db uid, it.user_id = uid ∧ it ∈ db.pantry_items) ∧
    ((db.pantry_items.filter (fun it => it.user_id == uid)).length ≤ 1000 →
      ∀ it ∈ db.pantry_items, it.user_id = uid → it ∈ get_pantry_items db uid) := by
  constructor
  · intro it hmem
    have h1 := List.mem_of_mem_take hmem
    rw [List.mem_filter] at h1
    exact ⟨by simpa using h1.2, h1.1⟩
  · intro hlen it hmem huid
    unfold get_pantry_items
    rw [List.take_of_length_le hlen, List.mem_filter]
    exact ⟨hmem, by simp [huid]⟩

theorem C8_amended_pantry_listing_witness :
    pantryW1 ∈ get_pantry_items dbW1 0 ∧
    ∀ it ∈ get_pantry_items dbW1 0, it.user_id = 0 :=
  ⟨(C8_amended_pantry_listing dbW1 0).2 (by decide) pantryW1 (by decide) rfl,
   fun it hmem => ((C8_amended_pantry_listing dbW1 0).1 it hmem).1⟩

/-! ### Registration sequences (claim C6) -/

/-- Run a sequence of `register` calls, failing if any one fails, and
collect each call's returned token and user. -/
def registerAll (db : DB) (now : Nat) :
    List (String × String) → Option (DB × List (Token × User))
  | [] => some (db, [])
  | (e, p) :: rest =>
    match register db now e p with
    | .error _ => none
    | .ok (db1, tok, u) =>
      match registerAll db1 now rest with
      | none => none
      | some (dbf, outs) => some (dbf, (tok, u) :: outs)

/-- System invariant: every stored user id was drawn from the counter.
Holds of the empty initial store and is preserved by `register`. -/
def UsersBounded (db : DB) : Prop := ∀ u ∈ db.users, u.id < db.next_id

theorem find?_eq_of_unique {α : Type} {p : α → Bool} {l : List α} {a : α}
    (hmem : a ∈ l) (huniq : ∀ b ∈ l, p b = true → b = a) (hpa : p a = true) :
    l.find? p = some a := by
  induction l with
  | nil => cases hmem
  | cons x xs ih =>
    cases hpx : p x with
    | true =>
      rw [List.find?_cons_of_pos _ hpx]
      exact congrArg some (huniq x (List.mem_cons_self x xs) hpx)
    | false =>
      rw [List.find?_cons_of_neg _ (by simp [hpx])]
      rcases List.mem_cons.mp hmem with rfl | hmem'
      · rw [hpa] at hpx; cases hpx
      · exact ih hmem' (fun b hb hpb => huniq b (List.mem_cons_of_mem _ hb) hpb)

theorem register_ok_elim (db : DB) (now : Nat) (e p : String) (db1 : DB)
    (tok : Token) (u : User)
    (h : register db now e p = .ok (db1, tok, u)) :
    u = { id := db.next_id
          email := e
          password_hash := hash_password p
          is_premium := false
          created_at := now } ∧
    db1 = { db with users := db.users ++ [u], next_id := db.next_id + 1 } ∧
    tok = ⟨db.next_id, now + accessTokenExpireSeconds⟩ := by
  cases hfind : db.users.find? (fun v => v.email == e) with
  | some w =>
    rw [register] at h
    rw [hfind] at h
    cases h
  | none =>
    rw [register] at h
    rw [hfind] at h
    simp only [Except.ok.injEq, Prod.mk.injEq] at h
    obtain ⟨h1, h2, h3⟩ := h
    refine ⟨h3.symm, ?_, ?_⟩
    · rw [← h1, h3]
    · rw [← h2, create_access_token]

theorem registerAll_spec (now : Nat) :
    ∀ (regs : List (String × String)) (db dbf : DB) (outs : List (Token × User)),
      UsersBounded db →
      registerAll db now regs = some (dbf, outs) →
      UsersBounded dbf ∧
      db.next_id ≤ dbf.next_id ∧
      dbf.users = db.users ++ outs.map Prod.snd ∧
      (∀ o ∈ outs, db.next_id ≤ o.2.id ∧ o.2.id < dbf.next_id ∧
        o.1.sub = o.2.id ∧ o.1.exp = now + accessTokenExpireSeconds) ∧
      List.Pairwise (fun a b : Token × User => a.2.id < b.2.id) outs := by
  intro regs
  induction regs with
  | nil =>
    intro db dbf outs hb hrun
    simp only [registerAll, Option.some.injEq, Prod.mk.injEq] at hrun
    obtain ⟨rfl, rfl⟩ := hrun
    exact ⟨hb, Nat.le_refl _, by simp, by simp, List.Pairwise.nil⟩
  | cons r rest ih =>
    intro db dbf outs hb hrun
    obtain ⟨e, p⟩ := r
    cases hreg : register db now e p with
    | error err =>
      rw [registerAll] at hrun
      rw [hreg] at hrun
      cases hrun
    | ok val =>
      obtain ⟨db1, tok, u⟩ := val
      rw [registerAll] at hrun
      rw [hreg] at hrun
      dsimp only at hrun
      cases hrest : registerAll db1 now rest with
      | none => rw [hrest] at hrun; cases hrun
      | some val2 =>
        obtain ⟨dbf', outs'⟩ := val2
        rw [hrest] at hrun
        simp only [Option.some.injEq, Prod.mk.injEq] at hrun
        obtain ⟨rfl, rfl⟩ := hrun
        obtain ⟨hu, hdb1, htok⟩ := register_ok_elim db now e p db1 tok u hreg
        have hnext1 : db1.next_id = db.next_id + 1 := by rw [hdb1]
        have husers1 : db1.users = db.users ++ [u] := by rw [hdb1]
        have huid : u.id = db.next_id := by rw [hu]
        have hb1 : UsersBounded db1 := by
          intro v hv
          rw [husers1] at hv
          rw [hnext1]
          simp only [List.mem_append, List.mem_singleton] at hv
          rcases hv with hv | rfl
          · have := hb v hv
            omega
          · omega
        obtain ⟨hbf, hmono, husers, hout, hpair⟩ := ih db1 dbf' outs' hb1 hrest
        refine ⟨hbf, by omega, ?_, ?_, ?_⟩
        · rw [husers, husers1]
          simp
        · intro o ho
          rcases List.mem_cons.mp ho with rfl | ho'
          · dsimp only
            refine ⟨by omega, by omega, ?_, ?_⟩
            · rw [htok, huid]
            · rw [htok]
          · obtain ⟨hge, hlt, hsub, hexp⟩ := hout o ho'
            exact ⟨by omega, hlt, hsub, hexp⟩
        · refine List.Pairwise.cons ?_ hpair
          intro b hb'
          have hgb := (hout b hb').1
          dsimp only
          omega

/-- C6: in any sequence of successful registrations (success forces the
emails pairwise distinct), every call returns a user id distinct from all
previously assigned ids, and a token that — run against the resulting state
before its expiry — authenticates back to exactly that user. -/
theorem C6_registration_unique_ids_and_tokens (db : DB) (now : Nat)
    (regs : List (String × String)) (dbf : DB) (outs : List (Token × User))
    (hb : UsersBounded db)
    (hrun : registerAll db now regs = some (dbf, outs)) :
    (outs.map (fun o => o.2.id)).Nodup ∧
    (∀ o ∈ outs, ∀ u ∈ db.users, o.2.id ≠ u.id) ∧
    (∀ o ∈ outs, ∀ t : Nat, t < o.1.exp → get_current_user dbf t o.1 = .ok o.2) := by
  obtain ⟨hbf, hmono, husers, hout, hpair⟩ := registerAll_spec now regs db dbf outs hb hrun
  have hne : List.Pairwise (fun a b : Token × User => a.2.id ≠ b.2.id) outs :=
    hpair.imp (fun h => Nat.ne_of_lt h)
  refine ⟨?_, ?_, ?_⟩
  · exact hne.map _ (fun a b h => h)
  · intro o ho u hu
    have h1 := (hout o ho).1
    have h2 := hb u hu
    omega
  · intro o ho t ht
    obtain ⟨hge, hlt, hsub, hexp⟩ := hout o ho
    have hnotexp : ¬ (o.1.exp < t) := by omega
    have hmemf : o.2 ∈ dbf.users := by
      rw [husers]
      exact List.mem_append_right _ (List.mem_map.mpr ⟨o, ho, rfl⟩)
    have hforall := List.Pairwise.forall
      (R := fun a b : Token × User => a.2.id ≠ b.2.id) (fun _ _ h => Ne.symm h) hne
    have hfind : dbf.users.find? (fun v => v.id == o.1.sub) = some o.2 := by
      apply find?_eq_of_unique hmemf
      · intro b hbmem hpb
        rw [beq_iff_eq, hsub] at hpb
        rw [husers, List.mem_append] at hbmem
        rcases hbmem with hbu | hbo
        · have := hb b hbu
          omega
        · rw [List.mem_map] at hbo
          obtain ⟨o', ho', rfl⟩ := hbo
          by_cases heq : o' = o
          · rw [heq]
          · exact absurd hpb (hforall ho' ho heq)
      · rw [beq_iff_eq, hsub]
    rw [get_current_user, if_neg hnotexp, hfind]

/-- Empty initial store for the registration witness. -/
def dbC6 : DB := {}

def regsC6 : List (String × String) := [("a@example.com", "pw1"), ("b@example.com", "pw2")]

def userC6a : User :=
  { id := 0
    email := "a@example.com"
    password_hash := hash_password "pw1"
    is_premium := false
    created_at := 100 }

def userC6b : User :=
  { id := 1
    email := "b@example.com"
    password_hash := hash_password "pw2"
    is_premium := false
    created_at := 100 }

def dbfC6 : DB := { users := [userC6a, userC6b], next_id := 2 }

def outsC6 : List (Token × User) :=
  [(⟨0, 100 + accessTokenExpireSeconds⟩, userC6a),
   (⟨1, 100 + accessTokenExpireSeconds⟩, userC6b)]

theorem C6_registration_unique_ids_and_tokens_witness :
    (outsC6.map (fun o => o.2.id)).Nodup ∧
    get_current_user dbfC6 200 ⟨0, 100 + accessTokenExpireSeconds⟩ = .ok userC6a ∧
    get_current_user dbfC6 200 ⟨1, 100 + accessTokenExpireSeconds⟩ = .ok userC6b := by
  have h := C6_registration_unique_ids_and_tokens dbC6 100 regsC6 dbfC6 outsC6
    (fun u hu => absurd hu (List.not_mem_nil u)) (by rfl)
  refine ⟨h.1, ?_, ?_⟩
  · exact h.2.2 (⟨0, 100 + accessTokenExpireSeconds⟩, userC6a)
      (by simp [outsC6]) 200 (by decide)
  · exact h.2.2 (⟨1, 100 + accessTokenExpireSeconds⟩, userC6b)
      (by simp [outsC6]) 200 (by decide)
